import Mathlib

/-!
Shallow embedding of the cfit evaluation/caching engine: the Gauss and Argus
shape models, the norm-component setters of Decay3BodyCP, and the Minimizer
cache merge.  Numeric state is modelled over an arbitrary linear ordered
field; the external numeric primitives (Math::erf, Math::gamma_p, std::exp,
std::pow(x, 1.5) and the constants sqrt(2), sqrt(pi/2)) live outside the
repository and are abstracted into a record of functions, so every theorem
holds for the real-number instantiation in particular.  C++ std::map objects
are modelled as association lists (at most one binding per key) or as
functions into Option; the process-global counter PdfBase::_cacheIdxReal is
threaded explicitly through the calls that read and increment it.
-/

/-- External math primitives used by the models (declared in cfit/math.hh and
the C standard library, outside this repository).  `gammaP` stands for
Math::gamma_p, `pow15` for std::pow(x, 1.5), `sqrt2` for std::sqrt(2.0) and
`sqrtPiHalf` for std::sqrt(M_PI / 2.0). -/
structure MathFns (α : Type) where
  erf : α → α
  gammaP : α → α → α
  exp : α → α
  pow15 : α → α
  sqrt2 : α
  sqrtPiHalf : α

/-- State of a Gauss model object.  The Parameter members `_mu` and `_sigma`
are modelled by their current evaluated value together with their fixed flag
(Parameter::isFixed); the remaining fields are the data members of the class:
`_hasLower`, `_hasUpper`, `_lower`, `_upper`, `_doCache`, `_cacheIdx`,
`_norm`. -/
structure Gauss (α : Type) where
  mu : α
  sigma : α
  muFixed : Bool
  sigmaFixed : Bool
  hasLower : Bool
  hasUpper : Bool
  lower : α
  upper : α
  doCache : Bool
  cacheIdx : Nat
  norm : α

/-- Gauss::cache — recomputes `_norm` from the current parameter values and
limits. -/
def Gauss.cache {α : Type} [LinearOrderedField α] (P : MathFns α) (s : Gauss α) : Gauss α :=
  let argmin : α := if s.hasLower then 1 + P.erf ((s.lower - s.mu) / (s.sigma * P.sqrt2)) else 0
  let argmax : α := if s.hasUpper then 1 + P.erf ((s.upper - s.mu) / (s.sigma * P.sqrt2)) else 2
  { s with norm := s.sigma * P.sqrtPiHalf * (argmax - argmin) }

/-- Gauss::evaluate( const double& x ) —
`exp( -0.5 * pow( x - mu(), 2 ) / pow( sigma(), 2 ) ) / _norm`. -/
def Gauss.evaluate {α : Type} [LinearOrderedField α] (P : MathFns α) (s : Gauss α) (x : α) : α :=
  P.exp (-(1 / 2 : α) * (x - s.mu) ^ 2 / s.sigma ^ 2) / s.norm

/-- Gauss::evaluate( const std::vector<double>& vars ) — evaluates at
`vars[0]`. -/
def Gauss.evaluateVec {α : Type} [LinearOrderedField α] (P : MathFns α) (s : Gauss α)
    (vars : List α) : α :=
  Gauss.evaluate P s (vars.headD 0)

/-- Gauss::evaluate( vars, cacheR, cacheC ) — the cached-path overload: if
`_doCache` is unset, recompute via the plain overload; otherwise return
`cacheR[ _cacheIdx ]`. -/
def Gauss.evaluateCached {α : Type} [LinearOrderedField α] (P : MathFns α) (s : Gauss α)
    (vars : List α) (cacheR : List α) (cacheC : List (α × α)) : α :=
  if s.doCache = false then Gauss.evaluateVec P s vars
  else cacheR.getD s.cacheIdx 0

/-- Gauss::cacheReal( const Dataset& data ).  The dataset is modelled as the
list of values of the model's variable at each entry, the global counter
`_cacheIdxReal` as the explicit argument `ctr`.  Returns the produced mapping,
the updated object state and the updated counter.  `_doCache` is recomputed
as the conjunction of the two parameters' fixed flags; when it is false the
empty mapping is returned and the counter is untouched.  Otherwise `_cacheIdx`
is set to the counter value and the counter incremented, and the mapping binds
`_cacheIdx` to one evaluated value per entry — because the binding is created
by `cached[ _cacheIdx ].push_back(...)` inside the per-entry loop, an empty
dataset produces an empty mapping. -/
def Gauss.cacheReal {α : Type} [LinearOrderedField α] (P : MathFns α) (s : Gauss α)
    (ctr : Nat) (data : List α) : List (Nat × List α) × Gauss α × Nat :=
  let dc := s.muFixed && s.sigmaFixed
  if dc = false then ([], { s with doCache := dc }, ctr)
  else
    let s' := { s with doCache := dc, cacheIdx := ctr }
    (if data.isEmpty then [] else [(ctr, data.map (Gauss.evaluate P s'))], s', ctr + 1)

/-- Lookup in an association list modelling a std::map. -/
def lookupKV {β : Type} : List (Nat × β) → Nat → Option β
  | [], _ => none
  | (k, v) :: rest, q => if q = k then some v else lookupKV rest q

/-- std::map::insert over a range: every binding of `src` is inserted into the
target map unless its key is already present (insert never overwrites). -/
def mapInsert {β : Type} (tgt : Nat → Option β) (src : List (Nat × β)) : Nat → Option β :=
  fun k => match tgt k with
    | some v => some v
    | none => lookupKV src k

/-- The per-entry cache slice handed to the cached-path evaluate: position `k`
holds the value cached under index `k` for dataset entry `e` (indices `0`
through `n - 1`, zero where the registry holds nothing). -/
def sliceAt {α : Type} [LinearOrderedField α] (reg : List (Nat × List α)) (n : Nat)
    (e : Nat) : List α :=
  (List.range n).map (fun k => match lookupKV reg k with
    | some vs => vs.getD e 0
    | none => 0)

/-- Local cache storage of a Minimizer object: the members `_cacheR` and
`_cacheC`, each a std::map modelled as a function into Option. -/
structure MinState (α : Type) where
  cacheR : Nat → Option (List α)
  cacheC : Nat → Option (List (α × α))

/-- Minimizer::cache() with a Gauss pdf: pulls the model's cacheReal mapping
for the dataset and merges it into local storage with std::map::insert.
Gauss does not override cacheComplex, so the base-class version contributes
the empty mapping to `_cacheC`.  The updated pdf state and global counter are
returned alongside the storage. -/
def Minimizer.cache {α : Type} [LinearOrderedField α] (P : MathFns α) (pdf : Gauss α)
    (ctr : Nat) (data : List α) (ms : MinState α) : MinState α × Gauss α × Nat :=
  let r := Gauss.cacheReal P pdf ctr data
  ({ cacheR := mapInsert ms.cacheR r.1, cacheC := mapInsert ms.cacheC [] }, r.2.1, r.2.2)

/-- A fit-session sequence of Gauss::cacheReal calls threading the global
counter `_cacheIdxReal`; returns the cache indices assigned to the models
that cached (those whose `_doCache` came out true). -/
def cacheRealSeq {α : Type} [LinearOrderedField α] (P : MathFns α) (data : List α) :
    Nat → List (Gauss α) → List Nat
  | _, [] => []
  | ctr, s :: rest =>
    let r := Gauss.cacheReal P s ctr data
    let tail := cacheRealSeq P data r.2.2 rest
    if r.2.1.doCache then r.2.1.cacheIdx :: tail else tail

/-- State of an Argus model object: parameter values with fixed flags elided
(no claim needs them), plus `_hasLower`, `_hasUpper`, `_lower`, `_upper`,
`_norm`. -/
structure Argus (α : Type) where
  c : α
  chi : α
  hasLower : Bool
  hasUpper : Bool
  lower : α
  upper : α
  norm : α

/-- Argus::cache — recomputes `_norm`; the `chi = 0` case uses the closed form
`c^2/3 * ((argmax)^1.5 - (argmin)^1.5)`, the general case the normalized
incomplete gamma function. -/
def Argus.cache {α : Type} [LinearOrderedField α] (P : MathFns α) (s : Argus α) : Argus α :=
  let vc := s.c
  let cSq := s.c ^ 2
  let chiSq := s.chi ^ 2
  let lo := if s.hasLower then max s.lower 0 else 0
  let hi := if s.hasUpper then min s.upper vc else vc
  let argmax := if s.hasLower then 1 - (lo / vc) ^ 2 else 1
  let argmin := if s.hasUpper then 1 - (hi / vc) ^ 2 else 0
  if chiSq = 0 then
    { s with norm := cSq / 3 * (P.pow15 argmax - P.pow15 argmin) }
  else
    let chi3 := s.chi ^ 3
    { s with norm := cSq / (2 * chi3) * P.sqrtPiHalf *
        (P.gammaP (3 / 2) (chiSq * argmax) - P.gammaP (3 / 2) (chiSq * argmin)) }

/-- Argus::setLowerLimit — throws a PdfException when the bound is negative,
otherwise records the limit and recomputes the norm.  The Boolean component
is true exactly when the call threw; the state component is the object state
after the call (the throw happens before any mutation). -/
def Argus.setLowerLimit {α : Type} [LinearOrderedField α] (P : MathFns α) (s : Argus α)
    (lo : α) : Argus α × Bool :=
  if lo < 0 then (s, true)
  else (Argus.cache P { s with hasLower := true, lower := lo }, false)

/-- Argus::setUpperLimit — same protocol as setLowerLimit. -/
def Argus.setUpperLimit {α : Type} [LinearOrderedField α] (P : MathFns α) (s : Argus α)
    (hi : α) : Argus α × Bool :=
  if hi < 0 then (s, true)
  else (Argus.cache P { s with hasUpper := true, upper := hi }, false)

/-- Argus::setLimits — checks the lower bound, then the upper bound, before
mutating anything. -/
def Argus.setLimits {α : Type} [LinearOrderedField α] (P : MathFns α) (s : Argus α)
    (lo hi : α) : Argus α × Bool :=
  if lo < 0 then (s, true)
  else if hi < 0 then (s, true)
  else (Argus.cache P { s with hasLower := true, hasUpper := true, lower := lo, upper := hi },
        false)

/-- Argus::area( min, max ) — note that `argmax` falls back to 1 whenever
`_hasLower` is unset and `argmin` to 0 whenever `_hasUpper` is unset,
regardless of the clipped bounds `xmin`, `xmax`. -/
def Argus.area {α : Type} [LinearOrderedField α] (P : MathFns α) (s : Argus α)
    (mn mx : α) : α :=
  let vc := s.c
  let cSq := s.c ^ 2
  let chiSq := s.chi ^ 2
  let lo := if s.hasLower then max s.lower 0 else 0
  let hi := if s.hasUpper then min s.upper vc else vc
  let xmin := max mn lo
  let xmax := min mx hi
  let argmax := if s.hasLower then 1 - (xmin / vc) ^ 2 else 1
  let argmin := if s.hasUpper then 1 - (xmax / vc) ^ 2 else 0
  if chiSq = 0 then
    cSq / 3 * (P.pow15 argmax - P.pow15 argmin) / s.norm
  else
    let chi3 := s.chi ^ 3
    cSq / (2 * chi3) * P.sqrtPiHalf *
      ((P.gammaP (3 / 2) (chiSq * argmax) - P.gammaP (3 / 2) (chiSq * argmin)) / s.norm)

/-- State of a Decay3BodyCP object restricted to the members its norm-setter
claims touch: the Amplitude member is modelled by its isFixed() result, the
complex `_nXed` by a pair of field elements. -/
structure Decay3BodyCP (α : Type) where
  ampFixed : Bool
  nDir : α
  nCnj : α
  nXed : α × α
  fixedAmp : Bool

/-- Decay3BodyCP::setNormComponents( nDir, nCnj, nXed ) — always refreshes
`_fixedAmp` from `_amp.isFixed()`; assigns the three norm components only when
the amplitude is fixed. -/
def Decay3BodyCP.setNormComponents3 {α : Type} (s : Decay3BodyCP α) (nDir nCnj : α)
    (nXed : α × α) : Decay3BodyCP α :=
  let fa := s.ampFixed
  if fa then { s with fixedAmp := fa, nDir := nDir, nCnj := nCnj, nXed := nXed }
  else { s with fixedAmp := fa }

/-- Decay3BodyCP::setNormComponents( nDir, nXed ) — two-argument overload:
when the amplitude is fixed, `_nCnj` is assigned the `nDir` argument. -/
def Decay3BodyCP.setNormComponents2 {α : Type} (s : Decay3BodyCP α) (nDir : α)
    (nXed : α × α) : Decay3BodyCP α :=
  let fa := s.ampFixed
  if fa then { s with fixedAmp := fa, nDir := nDir, nCnj := nDir, nXed := nXed }
  else { s with fixedAmp := fa }

/-- Concrete rational-valued primitives used to evaluate the models at
concrete inputs in witnesses and counterexamples. -/
def qFns : MathFns ℚ :=
  { erf := fun _ => 0
    gammaP := fun _ x => x
    exp := id
    pow15 := id
    sqrt2 := 1
    sqrtPiHalf := 1 }

/-- A Gauss object with both parameters fixed, used as concrete instance. -/
def gFixed : Gauss ℚ :=
  { mu := 0, sigma := 1, muFixed := true, sigmaFixed := true,
    hasLower := false, hasUpper := false, lower := 0, upper := 0,
    doCache := false, cacheIdx := 0, norm := 1 }

/-- A Gauss object previously cached, whose mu parameter has been toggled to
floating. -/
def gToggled : Gauss ℚ :=
  { mu := 0, sigma := 1, muFixed := false, sigmaFixed := true,
    hasLower := false, hasUpper := false, lower := 0, upper := 0,
    doCache := true, cacheIdx := 0, norm := 1 }

/-- An Argus object with no truncation limits, used as concrete instance. -/
def aPlain : Argus ℚ :=
  { c := 1, chi := 0, hasLower := false, hasUpper := false,
    lower := 0, upper := 0, norm := 0 }

/-- A Decay3BodyCP object whose amplitude is not fixed. -/
def dFloat : Decay3BodyCP ℚ :=
  { ampFixed := false, nDir := 10, nCnj := 20, nXed := (30, 40), fixedAmp := true }

/-- A Decay3BodyCP object whose amplitude is fixed. -/
def dFixed : Decay3BodyCP ℚ :=
  { ampFixed := true, nDir := 10, nCnj := 20, nXed := (30, 40), fixedAmp := false }

/-- C7: when `_doCache` is false, the cached-path Gauss::evaluate overload
returns exactly the direct evaluate of the variable vector, for arbitrary
contents of the cacheR and cacheC slices. -/
theorem gauss_cached_path_recomputes_when_doCache_false {α : Type} [LinearOrderedField α]
    (P : MathFns α) (s : Gauss α) (h : s.doCache = false) (vars cacheR : List α)
    (cacheC : List (α × α)) :
    Gauss.evaluateCached P s vars cacheR cacheC = Gauss.evaluateVec P s vars := by
  simp [Gauss.evaluateCached, h]

/-- Witness for C7 at a concrete instance. -/
theorem gauss_cached_path_recomputes_when_doCache_false_w :
    gFixed.doCache = false ∧
      Gauss.evaluateCached qFns gFixed [3] [5] [] = Gauss.evaluateVec qFns gFixed [3] :=
  ⟨rfl, gauss_cached_path_recomputes_when_doCache_false qFns gFixed rfl [3] [5] []⟩

/-- C2: both setNormComponents overloads leave `_nDir`, `_nCnj`, `_nXed`
unchanged when the amplitude is not fixed, and assign them from the arguments
when it is fixed. -/
theorem setNormComponents_honored_iff_amp_fixed {α : Type} (s : Decay3BodyCP α)
    (a b : α) (x : α × α) :
    (s.ampFixed = false →
      ((s.setNormComponents3 a b x).nDir = s.nDir ∧
       (s.setNormComponents3 a b x).nCnj = s.nCnj ∧
       (s.setNormComponents3 a b x).nXed = s.nXed) ∧
      ((s.setNormComponents2 a x).nDir = s.nDir ∧
       (s.setNormComponents2 a x).nCnj = s.nCnj ∧
       (s.setNormComponents2 a x).nXed = s.nXed)) ∧
    (s.ampFixed = true →
      ((s.setNormComponents3 a b x).nDir = a ∧
       (s.setNormComponents3 a b x).nCnj = b ∧
       (s.setNormComponents3 a b x).nXed = x) ∧
      ((s.setNormComponents2 a x).nDir = a ∧
       (s.setNormComponents2 a x).nCnj = a ∧
       (s.setNormComponents2 a x).nXed = x)) := by
  cases h : s.ampFixed <;>
    simp [Decay3BodyCP.setNormComponents3, Decay3BodyCP.setNormComponents2, h]

/-- Witness for C2 at concrete instances, one per branch. -/
theorem setNormComponents_honored_iff_amp_fixed_w :
    (dFloat.ampFixed = false ∧
      (dFloat.setNormComponents3 1 2 (3, 4)).nDir = dFloat.nDir ∧
      (dFloat.setNormComponents3 1 2 (3, 4)).nCnj = dFloat.nCnj ∧
      (dFloat.setNormComponents3 1 2 (3, 4)).nXed = dFloat.nXed) ∧
    (dFixed.ampFixed = true ∧
      (dFixed.setNormComponents3 1 2 (3, 4)).nDir = 1 ∧
      (dFixed.setNormComponents3 1 2 (3, 4)).nCnj = 2 ∧
      (dFixed.setNormComponents3 1 2 (3, 4)).nXed = (3, 4)) :=
  ⟨⟨rfl, ((setNormComponents_honored_iff_amp_fixed dFloat 1 2 (3, 4)).1 rfl).1⟩,
   ⟨rfl, ((setNormComponents_honored_iff_amp_fixed dFixed 1 2 (3, 4)).2 rfl).1⟩⟩

/-- C10: the two-argument setNormComponents overload, when the amplitude is
fixed, sets `_nCnj` to the `nDir` argument, so nCnj() and nDir() agree
afterwards. -/
theorem setNormComponents2_sets_nCnj_to_nDir {α : Type} (s : Decay3BodyCP α)
    (a : α) (x : α × α) (h : s.ampFixed = true) :
    (s.setNormComponents2 a x).nCnj = (s.setNormComponents2 a x).nDir ∧
      (s.setNormComponents2 a x).nCnj = a := by
  simp [Decay3BodyCP.setNormComponents2, h]

/-- Witness for C10 at a concrete instance. -/
theorem setNormComponents2_sets_nCnj_to_nDir_w :
    dFixed.ampFixed = true ∧
      (dFixed.setNormComponents2 7 (8, 9)).nCnj = (dFixed.setNormComponents2 7 (8, 9)).nDir :=
  ⟨rfl, (setNormComponents2_sets_nCnj_to_nDir dFixed 7 (8, 9) rfl).1⟩

/-- C8: the Argus limit setters throw a PdfException exactly when a negative
bound is passed, and a throwing call leaves the object state (limits and
norm) unchanged. -/
theorem argus_limit_setters_throw_iff_negative {α : Type} [LinearOrderedField α]
    (P : MathFns α) (s : Argus α) (lo hi : α) :
    ((Argus.setLowerLimit P s lo).2 = true ↔ lo < 0) ∧
    ((Argus.setLowerLimit P s lo).2 = true → (Argus.setLowerLimit P s lo).1 = s) ∧
    ((Argus.setUpperLimit P s hi).2 = true ↔ hi < 0) ∧
    ((Argus.setUpperLimit P s hi).2 = true → (Argus.setUpperLimit P s hi).1 = s) ∧
    ((Argus.setLimits P s lo hi).2 = true ↔ lo < 0 ∨ hi < 0) ∧
    ((Argus.setLimits P s lo hi).2 = true → (Argus.setLimits P s lo hi).1 = s) := by
  unfold Argus.setLowerLimit Argus.setUpperLimit Argus.setLimits
  rcases lt_or_le lo 0 with hl | hl <;> rcases lt_or_le hi 0 with hh | hh <;>
    simp [hl, hh, hl.not_lt, hh.not_lt]

/-- Witness for C8 at concrete instances: a negative bound throws and keeps
the state, a non-negative bound does not throw. -/
theorem argus_limit_setters_throw_iff_negative_w :
    ((Argus.setLowerLimit qFns aPlain (-1)).2 = true ∧
      (Argus.setLowerLimit qFns aPlain (-1)).1 = aPlain) ∧
    (Argus.setUpperLimit qFns aPlain 2).2 = false :=
  ⟨⟨(argus_limit_setters_throw_iff_negative qFns aPlain (-1) 2).1.mpr (by decide),
    (argus_limit_setters_throw_iff_negative qFns aPlain (-1) 2).2.1
      ((argus_limit_setters_throw_iff_negative qFns aPlain (-1) 2).1.mpr (by decide))⟩,
   by
    have h := (argus_limit_setters_throw_iff_negative qFns aPlain (-1) 2).2.2.1
    rcases hb : (Argus.setUpperLimit qFns aPlain 2).2 with _ | _
    · rfl
    · exact absurd (h.mp hb) (by decide)⟩

/-- Minimizer local storage with both maps empty. -/
def msEmpty : MinState ℚ := ⟨fun _ => none, fun _ => none⟩

/-- C3 counterexample: with both parameters fixed but an empty dataset,
Gauss::cacheReal returns the empty mapping — the binding under the fresh
index is only created inside the per-entry loop — so the returned mapping
does not contain exactly one index. -/
theorem gauss_cacheReal_empty_dataset_cex :
    gFixed.muFixed = true ∧ gFixed.sigmaFixed = true ∧
      (Gauss.cacheReal qFns gFixed 0 ([] : List ℚ)).1 = [] ∧
      (Gauss.cacheReal qFns gFixed 0 ([] : List ℚ)).1.length ≠ 1 := by
  decide

/-- C3 amended: cacheReal returns the empty mapping when some parameter is
floating (leaving the counter untouched); when both parameters are fixed it
allocates a fresh index and, for a nonempty dataset, returns the mapping
binding exactly that index to the model's density at each entry's variable
value, while for an empty dataset the returned mapping is empty. -/
theorem gauss_cacheReal_characterization {α : Type} [LinearOrderedField α]
    (P : MathFns α) (s : Gauss α) (ctr : Nat) (data : List α) :
    (¬(s.muFixed = true ∧ s.sigmaFixed = true) →
      (Gauss.cacheReal P s ctr data).1 = [] ∧ (Gauss.cacheReal P s ctr data).2.2 = ctr) ∧
    (s.muFixed = true → s.sigmaFixed = true → data ≠ [] →
      (Gauss.cacheReal P s ctr data).1 = [(ctr, data.map (Gauss.evaluate P s))] ∧
      (Gauss.cacheReal P s ctr data).2.1.cacheIdx = ctr ∧
      (Gauss.cacheReal P s ctr data).2.2 = ctr + 1) ∧
    (s.muFixed = true → s.sigmaFixed = true → data = [] →
      (Gauss.cacheReal P s ctr data).1 = []) := by
  refine ⟨fun h => ?_, fun hm hs hd => ?_, fun hm hs hd => ?_⟩
  · have hdc : (s.muFixed && s.sigmaFixed) = false := by
      cases hm : s.muFixed <;> cases hsg : s.sigmaFixed <;> simp_all
    simp [Gauss.cacheReal, hdc]
  · simp [Gauss.cacheReal, hm, hs, hd, Gauss.evaluate]
  · subst hd
    simp [Gauss.cacheReal, hm, hs]

/-- Witness for C3's amended theorem at concrete instances. -/
theorem gauss_cacheReal_characterization_w :
    gFixed.muFixed = true ∧ gFixed.sigmaFixed = true ∧ ([2, 3] : List ℚ) ≠ [] ∧
      (Gauss.cacheReal qFns gFixed 4 [2, 3]).1 =
        [(4, [Gauss.evaluate qFns gFixed 2, Gauss.evaluate qFns gFixed 3])] :=
  ⟨rfl, rfl, by decide,
    ((gauss_cacheReal_characterization qFns gFixed 4 [2, 3]).2.1 rfl rfl (by decide)).1⟩

/-- C5: after the caching step is re-run (Minimizer::cache, which invokes the
model's cacheReal) on a previously cached Gauss model one of whose parameters
has been toggled to floating, `_doCache` is false and every cached-path
evaluate call recomputes via the direct evaluate rather than reading the
stale cache slice. -/
theorem gauss_recache_after_toggle_falls_back {α : Type} [LinearOrderedField α]
    (P : MathFns α) (s : Gauss α) (ctr : Nat) (data : List α) (ms : MinState α)
    (hprev : s.doCache = true) (hfloat : s.muFixed = false ∨ s.sigmaFixed = false) :
    (Minimizer.cache P s ctr data ms).2.1.doCache = false ∧
    ∀ (vars cacheR : List α) (cacheC : List (α × α)),
      Gauss.evaluateCached P (Minimizer.cache P s ctr data ms).2.1 vars cacheR cacheC =
        Gauss.evaluateVec P (Minimizer.cache P s ctr data ms).2.1 vars := by
  have hdc : (s.muFixed && s.sigmaFixed) = false := by
    rcases hfloat with h | h <;> simp [h]
  refine ⟨?_, fun vars cacheR cacheC => ?_⟩
  · simp [Minimizer.cache, Gauss.cacheReal, hdc]
  · simp [Minimizer.cache, Gauss.cacheReal, hdc, Gauss.evaluateCached]

/-- Witness for C5 at a concrete instance. -/
theorem gauss_recache_after_toggle_falls_back_w :
    gToggled.doCache = true ∧ gToggled.muFixed = false ∧
      (Minimizer.cache qFns gToggled 5 [1, 2] msEmpty).2.1.doCache = false ∧
      Gauss.evaluateCached qFns (Minimizer.cache qFns gToggled 5 [1, 2] msEmpty).2.1
          [3] [9, 9] [] =
        Gauss.evaluateVec qFns (Minimizer.cache qFns gToggled 5 [1, 2] msEmpty).2.1 [3] :=
  ⟨rfl, rfl,
    (gauss_recache_after_toggle_falls_back qFns gToggled 5 [1, 2] msEmpty rfl (Or.inl rfl)).1,
    (gauss_recache_after_toggle_falls_back qFns gToggled 5 [1, 2] msEmpty rfl
      (Or.inl rfl)).2 [3] [9, 9] []⟩

/-- Every index handed out during a sequence of cacheReal calls is at least
the counter value the sequence started from. -/
lemma cacheRealSeq_counter_le {α : Type} [LinearOrderedField α] (P : MathFns α)
    (data : List α) :
    ∀ (ss : List (Gauss α)) (ctr i : Nat), i ∈ cacheRealSeq P data ctr ss → ctr ≤ i := by
  intro ss
  induction ss with
  | nil => intro ctr i hi; simp [cacheRealSeq] at hi
  | cons s rest ih =>
    intro ctr i hi
    cases hdc : (s.muFixed && s.sigmaFixed) with
    | false =>
      simp only [cacheRealSeq, Gauss.cacheReal, hdc] at hi
      simp at hi
      exact ih ctr i hi
    | true =>
      simp only [cacheRealSeq, Gauss.cacheReal, hdc] at hi
      simp at hi
      rcases hi with rfl | hi
      · exact le_refl _
      · exact le_trans (Nat.le_succ _) (ih (ctr + 1) i hi)

/-- C4: across any sequence of cacheReal calls threading the global counter,
the indices assigned to the models that cached are strictly increasing in
call order, hence pairwise distinct. -/
theorem cacheReal_indices_pairwise_distinct {α : Type} [LinearOrderedField α]
    (P : MathFns α) (data : List α) (ss : List (Gauss α)) (ctr : Nat) :
    (cacheRealSeq P data ctr ss).Pairwise (· < ·) ∧
      (cacheRealSeq P data ctr ss).Pairwise (· ≠ ·) := by
  have hmain : ∀ (ss : List (Gauss α)) (ctr : Nat),
      (cacheRealSeq P data ctr ss).Pairwise (· < ·) := by
    intro ss
    induction ss with
    | nil => intro ctr; simp [cacheRealSeq]
    | cons s rest ih =>
      intro ctr
      cases hdc : (s.muFixed && s.sigmaFixed) with
      | false =>
        simp only [cacheRealSeq, Gauss.cacheReal, hdc]
        simpa using ih ctr
      | true =>
        simp [cacheRealSeq, Gauss.cacheReal, hdc]
        refine ⟨fun i hi => ?_, ?_⟩
        · exact lt_of_lt_of_le (Nat.lt_succ_self ctr)
            (cacheRealSeq_counter_le P data rest (ctr + 1) i (by simpa using hi))
        · simpa using ih (ctr + 1)
  exact ⟨hmain ss ctr, (hmain ss ctr).imp ne_of_lt⟩

/-- C1: for a Gauss model with both parameters fixed, after cacheReal has run,
the cached-path evaluate fed the per-entry slice built from the returned
mapping gives, at every dataset entry, the same value as the direct evaluate
of that entry's variable vector. -/
theorem gauss_cached_path_refines_direct {α : Type} [LinearOrderedField α]
    (P : MathFns α) (s : Gauss α) (ctr : Nat) (data : List α) (e : Nat)
    (hm : s.muFixed = true) (hs : s.sigmaFixed = true) (he : e < data.length) :
    Gauss.evaluateCached P (Gauss.cacheReal P s ctr data).2.1 [data.getD e 0]
        (sliceAt (Gauss.cacheReal P s ctr data).1 (Gauss.cacheReal P s ctr data).2.2 e) [] =
      Gauss.evaluateVec P (Gauss.cacheReal P s ctr data).2.1 [data.getD e 0] := by
  have hne : data.isEmpty = false := by
    cases data with
    | nil => simp at he
    | cons a as => rfl
  simp only [Gauss.cacheReal, hm, hs, Bool.and_self, Bool.true_eq_false, if_false, hne]
  simp only [Gauss.evaluateCached, Gauss.evaluateVec, sliceAt]
  simp only [List.getD_eq_getElem?_getD, List.getElem?_map, List.getElem?_range,
    Nat.lt_succ_self, Option.getD_map]
  simp [lookupKV, List.getElem?_eq_getElem he, List.headD]

/-- Witness for C1 at a concrete instance. -/
theorem gauss_cached_path_refines_direct_w :
    gFixed.muFixed = true ∧ gFixed.sigmaFixed = true ∧ 1 < ([2, 3] : List ℚ).length ∧
      Gauss.evaluateCached qFns (Gauss.cacheReal qFns gFixed 0 [2, 3]).2.1
          [([2, 3] : List ℚ).getD 1 0]
          (sliceAt (Gauss.cacheReal qFns gFixed 0 [2, 3]).1
            (Gauss.cacheReal qFns gFixed 0 [2, 3]).2.2 1) [] =
        Gauss.evaluateVec qFns (Gauss.cacheReal qFns gFixed 0 [2, 3]).2.1
          [([2, 3] : List ℚ).getD 1 0] :=
  ⟨rfl, rfl, by decide,
    gauss_cached_path_refines_direct qFns gFixed 0 [2, 3] 1 rfl rfl (by decide)⟩

/-- Inserting a range into a std::map never changes a key that is already
bound. -/
lemma mapInsert_of_isSome {β : Type} (tgt : Nat → Option β) (src : List (Nat × β))
    (k : Nat) (h : (tgt k).isSome = true) : mapInsert tgt src k = tgt k := by
  unfold mapInsert
  cases htk : tgt k with
  | none => rw [htk] at h; simp at h
  | some v => simp

/-- Inserting an empty range into a std::map changes nothing. -/
lemma mapInsert_nil {β : Type} (tgt : Nat → Option β) (k : Nat) :
    mapInsert tgt [] k = tgt k := by
  unfold mapInsert
  cases htk : tgt k <;> simp [lookupKV]

/-- C6 counterexample: with a cacheable Gauss pdf and a one-entry dataset,
the second Minimizer::cache() call pulls a second cacheReal mapping under a
freshly allocated index and inserts it, so the two-call storage differs from
the single-call storage (key 1 is bound after two calls, unbound after one). -/
theorem minimizer_cache_twice_cex :
    ((Minimizer.cache qFns (Minimizer.cache qFns gFixed 0 [2] msEmpty).2.1
        (Minimizer.cache qFns gFixed 0 [2] msEmpty).2.2 [2]
        (Minimizer.cache qFns gFixed 0 [2] msEmpty).1).1.cacheR 1 ≠
      (Minimizer.cache qFns gFixed 0 [2] msEmpty).1.cacheR 1) ∧
      (Minimizer.cache qFns gFixed 0 [2] msEmpty).1.cacheR 1 = none := by
  decide

/-- C6 amended: a repeated Minimizer::cache() never overwrites or duplicates
the entry at a key already bound after the first call — std::map::insert
keeps existing keys, and the complex storage is untouched — although, when
the pdf is cacheable, the second call does insert one additional entry under
a freshly allocated index, so the two-call storage extends rather than equals
the single-call storage. -/
theorem minimizer_cache_twice_preserves_existing {α : Type} [LinearOrderedField α]
    (P : MathFns α) (pdf : Gauss α) (ctr : Nat) (data : List α) (ms : MinState α)
    (k : Nat) (hk : ((Minimizer.cache P pdf ctr data ms).1.cacheR k).isSome = true) :
    (Minimizer.cache P (Minimizer.cache P pdf ctr data ms).2.1
        (Minimizer.cache P pdf ctr data ms).2.2 data
        (Minimizer.cache P pdf ctr data ms).1).1.cacheR k =
      (Minimizer.cache P pdf ctr data ms).1.cacheR k ∧
    ∀ j, (Minimizer.cache P (Minimizer.cache P pdf ctr data ms).2.1
        (Minimizer.cache P pdf ctr data ms).2.2 data
        (Minimizer.cache P pdf ctr data ms).1).1.cacheC j =
      (Minimizer.cache P pdf ctr data ms).1.cacheC j := by
  constructor
  · have h := mapInsert_of_isSome (Minimizer.cache P pdf ctr data ms).1.cacheR
      (Gauss.cacheReal P (Minimizer.cache P pdf ctr data ms).2.1
        (Minimizer.cache P pdf ctr data ms).2.2 data).1 k hk
    simpa [Minimizer.cache] using h
  · intro j
    have h := mapInsert_nil (Minimizer.cache P pdf ctr data ms).1.cacheC j
    simpa [Minimizer.cache] using h

/-- Witness for C6's amended theorem at a concrete instance. -/
theorem minimizer_cache_twice_preserves_existing_w :
    ((Minimizer.cache qFns gFixed 0 [2] msEmpty).1.cacheR 0).isSome = true ∧
      (Minimizer.cache qFns (Minimizer.cache qFns gFixed 0 [2] msEmpty).2.1
          (Minimizer.cache qFns gFixed 0 [2] msEmpty).2.2 [2]
          (Minimizer.cache qFns gFixed 0 [2] msEmpty).1).1.cacheR 0 =
        (Minimizer.cache qFns gFixed 0 [2] msEmpty).1.cacheR 0 :=
  ⟨by decide,
    (minimizer_cache_twice_preserves_existing qFns gFixed 0 [2] msEmpty 0 (by decide)).1⟩

/-- An Argus object degenerate at `c = 0`. -/
def aZero : Argus ℚ :=
  { c := 0, chi := 0, hasLower := false, hasUpper := false,
    lower := 0, upper := 0, norm := 0 }


/-- C9 counterexample: for the degenerate Argus model with `c = 0` (no
truncation limits, freshly cached), the cached norm is 0, so area(0, 1) does
not return 1 — the C++ double computation yields NaN there, the field model
with total division yields 0; either way the value 1.0 is not produced. -/
theorem argus_area_cex :
    aZero.hasLower = false ∧ aZero.hasUpper = false ∧
      Argus.area qFns (Argus.cache qFns aZero) 0 1 ≠ 1 := by
  refine ⟨rfl, rfl, ?_⟩
  have h : Argus.area qFns (Argus.cache qFns aZero) 0 1 = 0 := by
    norm_num [Argus.area, Argus.cache, aZero, qFns]
  rw [h]
  norm_num

/-- With no truncation limits, Argus::area computes exactly the expression the
preceding Argus::cache stored in `_norm`, divided by `_norm` itself: the
clipped bounds xmin, xmax are ignored because both ternaries fall back to the
full-support values. -/
lemma argus_area_eq_norm_div_norm {α : Type} [LinearOrderedField α] (P : MathFns α)
    (s : Argus α) (hl : s.hasLower = false) (hu : s.hasUpper = false) (mn mx : α) :
    Argus.area P (Argus.cache P s) mn mx =
      (Argus.cache P s).norm / (Argus.cache P s).norm := by
  unfold Argus.area Argus.cache
  by_cases hchi : s.chi ^ 2 = 0
  · simp [hl, hu, hchi]
  · simp only [hl, hu, Bool.false_eq_true, if_false, hchi]
    rw [← mul_div_assoc]

/-- C9 amended: for an Argus model with no truncation limits, freshly cached,
whose cached normalization is nonzero, area(min, max) returns exactly 1 for
every pair of arguments — min and max do not affect the result because the
integration bounds fall back to the full support. -/
theorem argus_area_full_support_one {α : Type} [LinearOrderedField α]
    (P : MathFns α) (s : Argus α) (hl : s.hasLower = false) (hu : s.hasUpper = false)
    (hn : (Argus.cache P s).norm ≠ 0) (mn mx : α) :
    Argus.area P (Argus.cache P s) mn mx = 1 := by
  rw [argus_area_eq_norm_div_norm P s hl hu mn mx]
  exact div_self hn

/-- Witness for C9's amended theorem at a concrete instance. -/
theorem argus_area_full_support_one_w :
    aPlain.hasLower = false ∧ aPlain.hasUpper = false ∧
      (Argus.cache qFns aPlain).norm ≠ 0 ∧
      Argus.area qFns (Argus.cache qFns aPlain) 5 7 = 1 :=
  ⟨rfl, rfl, by norm_num [Argus.cache, aPlain, qFns],
    argus_area_full_support_one qFns aPlain rfl rfl
      (by norm_num [Argus.cache, aPlain, qFns]) 5 7⟩
